import Mathlib

/-!
Verification of the airGM global-model core (Python port).

This file shallowly embeds the reaction-network bookkeeping and the
time-integration engine of the `python/` package:

* `species.py` — the density floor (`Species.set_density`) and the
  incidence-list deduplication pass
  (`Species.process_reduce_lists_of_reaction_no`);
* `globalmodel.py` — the incidence builder (`set_balance_equations`),
  the balance evaluator (`process_balance_equations`), the explicit
  update rule (`process_time_step_species_densities`), the electron
  temperature profile, the save-interval policy, the two-phase main
  loop, and the checkpoint reader.

Python floats are modelled as exact rationals (`ℚ`), Python ints as
`Int`/`Nat`.  The C-style arrays whose slot 0 stores the current count
are modelled as Lean lists of the live entries (slots `1 .. count`),
so the count is the list length.  The rate-law collaborator
(`reaction.py`, exposed to the core only through its accessor
interface) is a parameter of the model state.
-/

namespace AirGM

/-- Static topology of one reaction: reactant and product species
indices, duplicates allowed (stoichiometry), mirroring the accessor
interface `return_number_of_reactants` / `return_reactant(k)` /
`return_number_of_products` / `return_product(k)`. -/
structure Reaction where
  reactants : List Nat
  products : List Nat
deriving DecidableEq

/-- The per-species incidence lists of `species.py`: `sources` holds
the `(reaction_no, multiplier)` pairs stored in
`list_of_reaction_no_sources` / `..._sources_multiplier` at slots
`1 .. count`, `losses` likewise for the loss arrays. -/
structure SpeciesLists where
  sources : List (Nat × Nat)
  losses : List (Nat × Nat)
deriving DecidableEq

/-- Number of reactant (or product) slots of a reaction referencing
species `i`: the `repeat_loss` / `repeat_source` counting loop of
`GlobalModel.set_balance_equations` (globalmodel.py lines 107–110 and
118–121). -/
def countOcc (i : Nat) : List Nat → Nat
  | [] => 0
  | a :: rest => (if a = i then 1 else 0) + countOcc i rest

/-- Raw incidence lists that `GlobalModel.set_balance_equations`
accumulates for species `i` before its final
`process_reduce_lists_of_reaction_no` call (globalmodel.py lines
104–127): reaction ids are assigned `j, j+1, ...` in scan order, and a
`(id, multiplier)` pair is appended exactly when the multiplier is
positive. -/
def raw_balance_lists (i j : Nat) : List Reaction → SpeciesLists
  | [] => ⟨[], []⟩
  | r :: rest =>
    ⟨(if 0 < countOcc i r.products then [(j, countOcc i r.products)] else [])
        ++ (raw_balance_lists i (j + 1) rest).sources,
     (if 0 < countOcc i r.reactants then [(j, countOcc i r.reactants)] else [])
        ++ (raw_balance_lists i (j + 1) rest).losses⟩

/-- Raw incidence lists of species `i` for the reaction table `rs`
(reaction ids `1 .. rs.length`, as in the `for j in range(1,
NO_REACTIONS + 1)` scan). -/
def set_balance_equations_raw (i : Nat) (rs : List Reaction) : SpeciesLists :=
  raw_balance_lists i 1 rs

/-- Inner loop of the deduplication pass
(`Species.process_reduce_lists_of_reaction_no`, species.py lines
102–123): one source entry with reaction id `sr` and current
multiplier `sm` is played against every loss entry in order; at each
entry with the same reaction id the two multipliers are compared once
and resolved (equal → both zero; source larger → source keeps the
difference, loss zeroed; loss larger → loss keeps the difference,
source zeroed).  Returns the final source multiplier and the updated
loss list. -/
def reduceInner (sr sm : Nat) : List (Nat × Nat) → Nat × List (Nat × Nat)
  | [] => (sm, [])
  | (lr, lm) :: rest =>
    if sr = lr then
      if sm = lm then
        ((reduceInner sr 0 rest).1, (lr, 0) :: (reduceInner sr 0 rest).2)
      else if lm < sm then
        ((reduceInner sr (sm - lm) rest).1, (lr, 0) :: (reduceInner sr (sm - lm) rest).2)
      else
        ((reduceInner sr 0 rest).1, (lr, lm - sm) :: (reduceInner sr 0 rest).2)
    else
      ((reduceInner sr sm rest).1, (lr, lm) :: (reduceInner sr sm rest).2)

/-- Outer loop of the deduplication pass (species.py lines 99–123):
each source entry in order is resolved against the (in-place updated)
loss list. -/
def reduceOuter : List (Nat × Nat) → List (Nat × Nat) → List (Nat × Nat) × List (Nat × Nat)
  | [], losses => ([], losses)
  | (sr, sm) :: rest, losses =>
    ((sr, (reduceInner sr sm losses).1) :: (reduceOuter rest (reduceInner sr sm losses).2).1,
     (reduceOuter rest (reduceInner sr sm losses).2).2)

/-- Compaction step of the deduplication pass (species.py lines
125–157): entries whose multiplier is not positive are discarded,
relative order is preserved, and the length counter (slot 0, here the
list length) is rewritten. -/
def compactLists (l : List (Nat × Nat)) : List (Nat × Nat) :=
  l.filter fun p => 0 < p.2

/-- Full `Species.process_reduce_lists_of_reaction_no`: overlap
resolution over both lists, then compaction of each. -/
def process_reduce_lists_of_reaction_no (s : SpeciesLists) : SpeciesLists :=
  ⟨compactLists (reduceOuter s.sources s.losses).1,
   compactLists (reduceOuter s.sources s.losses).2⟩

/-- Sum of the multipliers carried by entries with reaction id `j`.
On a list in which each reaction id occurs at most once this is the
multiplier of `j`, and `0` when `j` is absent. -/
def multSum (j : Nat) : List (Nat × Nat) → Nat
  | [] => 0
  | p :: rest => (if p.1 = j then p.2 else 0) + multSum j rest

/-- Multiplier of the first entry with reaction id `j`, or `0` when
the reaction is absent from the list. -/
def lookupMult (j : Nat) : List (Nat × Nat) → Nat
  | [] => 0
  | p :: rest => if p.1 = j then p.2 else lookupMult j rest

theorem multSum_append (j : Nat) (a b : List (Nat × Nat)) :
    multSum j (a ++ b) = multSum j a + multSum j b := by
  induction a with
  | nil => simp [multSum]
  | cons p rest ih => simp [multSum, ih]; omega

theorem multSum_eq_zero (j : Nat) (l : List (Nat × Nat)) (h : ∀ p ∈ l, p.1 ≠ j) :
    multSum j l = 0 := by
  induction l with
  | nil => rfl
  | cons p rest ih =>
    have hp := h p (List.mem_cons_self _ _)
    simp only [multSum, if_neg hp, ih fun q hq => h q (List.mem_cons_of_mem _ hq)]

theorem multSum_eq_zero_of_not_mem (j : Nat) (l : List (Nat × Nat))
    (h : j ∉ l.map Prod.fst) : multSum j l = 0 := by
  refine multSum_eq_zero j l fun p hp hpj => h ?_
  exact hpj ▸ List.mem_map_of_mem Prod.fst hp

theorem pos_multSum_of_mem (j : Nat) (l : List (Nat × Nat)) (p : Nat × Nat)
    (hp : p ∈ l) (hj : p.1 = j) (hpos : 0 < p.2) : 0 < multSum j l := by
  induction l with
  | nil => cases hp
  | cons q rest ih =>
    rcases List.mem_cons.mp hp with h | h
    · subst h; simp only [multSum, if_pos hj]; omega
    · have := ih h; simp only [multSum]; omega

theorem lookupMult_eq_multSum (j : Nat) (l : List (Nat × Nat))
    (h : (l.map Prod.fst).Nodup) : lookupMult j l = multSum j l := by
  induction l with
  | nil => rfl
  | cons p rest ih =>
    simp only [List.map_cons, List.nodup_cons] at h
    by_cases hj : p.1 = j
    · have : multSum j rest = 0 :=
        multSum_eq_zero_of_not_mem j rest (hj ▸ h.1)
      simp [lookupMult, multSum, hj, this]
    · simp [lookupMult, multSum, hj, ih h.2]

theorem reduceInner_ids (sr : Nat) (ls : List (Nat × Nat)) :
    ∀ sm, ((reduceInner sr sm ls).2).map Prod.fst = ls.map Prod.fst := by
  induction ls with
  | nil => intro sm; rfl
  | cons p rest ih =>
    intro sm
    obtain ⟨lr, lm⟩ := p
    simp only [reduceInner]
    split_ifs <;> simp [ih]

theorem reduceInner_net (sr : Nat) (ls : List (Nat × Nat)) :
    ∀ sm, ((reduceInner sr sm ls).1 : Int) - multSum sr (reduceInner sr sm ls).2
      = (sm : Int) - multSum sr ls := by
  induction ls with
  | nil => intro sm; rfl
  | cons p rest ih =>
    intro sm
    obtain ⟨lr, lm⟩ := p
    by_cases hlr : sr = lr
    · simp only [reduceInner, if_pos hlr]
      split_ifs with h1 h2
      · have h0 := ih 0
        simp [multSum, hlr.symm]
        omega
      · have h0 := ih (sm - lm)
        simp [multSum, hlr.symm]
        omega
      · have h0 := ih 0
        simp [multSum, hlr.symm]
        omega
    · have hne : lr ≠ sr := fun h => hlr h.symm
      have h0 := ih sm
      simp only [reduceInner, if_neg hlr]
      simp [multSum, hne]
      omega

theorem reduceInner_multSum_ne (sr j : Nat) (hj : j ≠ sr) (ls : List (Nat × Nat)) :
    ∀ sm, multSum j (reduceInner sr sm ls).2 = multSum j ls := by
  induction ls with
  | nil => intro sm; rfl
  | cons p rest ih =>
    intro sm
    obtain ⟨lr, lm⟩ := p
    simp only [reduceInner]
    by_cases hlr : sr = lr
    · have hlj : lr ≠ j := fun h => hj (h ▸ hlr).symm
      rw [if_pos hlr]
      split_ifs with h1 h2 <;> simp only [multSum, if_neg hlj, ih]
    · rw [if_neg hlr]
      simp only [multSum, ih]

theorem reduceOuter_src_ids (ss : List (Nat × Nat)) :
    ∀ ls, ((reduceOuter ss ls).1).map Prod.fst = ss.map Prod.fst := by
  induction ss with
  | nil => intro ls; rfl
  | cons p rest ih =>
    intro ls
    obtain ⟨sr, sm⟩ := p
    simp only [reduceOuter, List.map_cons, ih]

theorem reduceOuter_loss_ids (ss : List (Nat × Nat)) :
    ∀ ls, ((reduceOuter ss ls).2).map Prod.fst = ls.map Prod.fst := by
  induction ss with
  | nil => intro ls; rfl
  | cons p rest ih =>
    intro ls
    obtain ⟨sr, sm⟩ := p
    simp only [reduceOuter, ih, reduceInner_ids]

theorem reduceOuter_net (ss : List (Nat × Nat)) :
    ∀ ls j, (multSum j (reduceOuter ss ls).1 : Int) - multSum j (reduceOuter ss ls).2
      = (multSum j ss : Int) - multSum j ls := by
  induction ss with
  | nil => intro ls j; simp [reduceOuter, multSum]
  | cons p rest ih =>
    intro ls j
    obtain ⟨sr, sm⟩ := p
    have hih := ih (reduceInner sr sm ls).2 j
    by_cases hj : j = sr
    · have hin := reduceInner_net sr ls sm
      rw [hj] at hih ⊢
      simp only [reduceOuter]
      simp [multSum]
      omega
    · have hin := reduceInner_multSum_ne sr j hj ls sm
      have hns : sr ≠ j := fun h => hj h.symm
      simp only [reduceOuter]
      simp [multSum, hns]
      omega

theorem multSum_compact (j : Nat) (l : List (Nat × Nat)) :
    multSum j (compactLists l) = multSum j l := by
  induction l with
  | nil => rfl
  | cons p rest ih =>
    by_cases hp : 0 < p.2
    · have hc : compactLists (p :: rest) = p :: compactLists rest := by
        simp [compactLists, List.filter_cons, hp]
      rw [hc]
      simp only [multSum, ih]
    · have hz : p.2 = 0 := by omega
      have hc : compactLists (p :: rest) = compactLists rest := by
        simp [compactLists, List.filter_cons, hp]
      rw [hc, ih]
      simp [multSum, hz]

theorem raw_sources_ids_ge (i : Nat) (rs : List Reaction) :
    ∀ j p, p ∈ (raw_balance_lists i j rs).sources → j ≤ p.1 := by
  induction rs with
  | nil => intro j p hp; cases hp
  | cons r rest ih =>
    intro j p hp
    simp only [raw_balance_lists, List.mem_append] at hp
    rcases hp with h | h
    · by_cases hc : 0 < countOcc i r.products
      · rw [if_pos hc] at h
        simp only [List.mem_singleton] at h
        rw [h]
      · rw [if_neg hc] at h
        cases h
    · have := ih (j + 1) p h
      omega

theorem raw_losses_ids_ge (i : Nat) (rs : List Reaction) :
    ∀ j p, p ∈ (raw_balance_lists i j rs).losses → j ≤ p.1 := by
  induction rs with
  | nil => intro j p hp; cases hp
  | cons r rest ih =>
    intro j p hp
    simp only [raw_balance_lists, List.mem_append] at hp
    rcases hp with h | h
    · by_cases hc : 0 < countOcc i r.reactants
      · rw [if_pos hc] at h
        simp only [List.mem_singleton] at h
        rw [h]
      · rw [if_neg hc] at h
        cases h
    · have := ih (j + 1) p h
      omega

theorem raw_sources_nodup (i : Nat) (rs : List Reaction) :
    ∀ j, (((raw_balance_lists i j rs).sources).map Prod.fst).Nodup := by
  induction rs with
  | nil => intro j; simp [raw_balance_lists]
  | cons r rest ih =>
    intro j
    have hnot : j ∉ ((raw_balance_lists i (j + 1) rest).sources).map Prod.fst := by
      intro hmem
      rcases List.mem_map.mp hmem with ⟨p, hp, hfst⟩
      have := raw_sources_ids_ge i rest (j + 1) p hp
      omega
    by_cases hc : 0 < countOcc i r.products
    · simp [raw_balance_lists, hc, List.nodup_cons, hnot, ih (j + 1)]
    · simp [raw_balance_lists, hc, ih (j + 1)]

theorem raw_losses_nodup (i : Nat) (rs : List Reaction) :
    ∀ j, (((raw_balance_lists i j rs).losses).map Prod.fst).Nodup := by
  induction rs with
  | nil => intro j; simp [raw_balance_lists]
  | cons r rest ih =>
    intro j
    have hnot : j ∉ ((raw_balance_lists i (j + 1) rest).losses).map Prod.fst := by
      intro hmem
      rcases List.mem_map.mp hmem with ⟨p, hp, hfst⟩
      have := raw_losses_ids_ge i rest (j + 1) p hp
      omega
    by_cases hc : 0 < countOcc i r.reactants
    · simp [raw_balance_lists, hc, List.nodup_cons, hnot, ih (j + 1)]
    · simp [raw_balance_lists, hc, ih (j + 1)]

theorem raw_sources_multSum (i : Nat) (rs : List Reaction) :
    ∀ j0 k (h : k < rs.length),
      multSum (j0 + k) (raw_balance_lists i j0 rs).sources
        = countOcc i (rs.get ⟨k, h⟩).products := by
  induction rs with
  | nil => intro j0 k h; exact absurd h (Nat.not_lt_zero k)
  | cons r rest ih =>
    intro j0 k h
    cases k with
    | zero =>
      have hz : multSum j0 ((raw_balance_lists i (j0 + 1) rest).sources) = 0 := by
        apply multSum_eq_zero
        intro p hp
        have := raw_sources_ids_ge i rest (j0 + 1) p hp
        omega
      by_cases hc : 0 < countOcc i r.products
      · simp [raw_balance_lists, multSum_append, hc, multSum, hz]
      · have hzero : countOcc i r.products = 0 := by omega
        simp [raw_balance_lists, multSum_append, hc, multSum, hz, hzero]
    | succ k' =>
      have h' : k' < rest.length := Nat.lt_of_succ_lt_succ h
      have htail := ih (j0 + 1) k' h'
      have hne : j0 ≠ j0 + (k' + 1) := by omega
      have harith : (j0 + 1) + k' = j0 + (k' + 1) := by omega
      rw [harith] at htail
      show multSum (j0 + (k' + 1))
          ((raw_balance_lists i j0 (r :: rest)).sources)
        = countOcc i (rest.get ⟨k', h'⟩).products
      by_cases hc : 0 < countOcc i r.products
      · simp [raw_balance_lists, multSum_append, hc, multSum, hne, htail]
      · simp [raw_balance_lists, multSum_append, hc, multSum, hne, htail]

theorem raw_losses_multSum (i : Nat) (rs : List Reaction) :
    ∀ j0 k (h : k < rs.length),
      multSum (j0 + k) (raw_balance_lists i j0 rs).losses
        = countOcc i (rs.get ⟨k, h⟩).reactants := by
  induction rs with
  | nil => intro j0 k h; exact absurd h (Nat.not_lt_zero k)
  | cons r rest ih =>
    intro j0 k h
    cases k with
    | zero =>
      have hz : multSum j0 ((raw_balance_lists i (j0 + 1) rest).losses) = 0 := by
        apply multSum_eq_zero
        intro p hp
        have := raw_losses_ids_ge i rest (j0 + 1) p hp
        omega
      by_cases hc : 0 < countOcc i r.reactants
      · simp [raw_balance_lists, multSum_append, hc, multSum, hz]
      · have hzero : countOcc i r.reactants = 0 := by omega
        simp [raw_balance_lists, multSum_append, hc, multSum, hz, hzero]
    | succ k' =>
      have h' : k' < rest.length := Nat.lt_of_succ_lt_succ h
      have htail := ih (j0 + 1) k' h'
      have hne : j0 ≠ j0 + (k' + 1) := by omega
      have harith : (j0 + 1) + k' = j0 + (k' + 1) := by omega
      rw [harith] at htail
      show multSum (j0 + (k' + 1))
          ((raw_balance_lists i j0 (r :: rest)).losses)
        = countOcc i (rest.get ⟨k', h'⟩).reactants
      by_cases hc : 0 < countOcc i r.reactants
      · simp [raw_balance_lists, multSum_append, hc, multSum, hne, htail]
      · simp [raw_balance_lists, multSum_append, hc, multSum, hne, htail]

theorem process_reduce_net (s : SpeciesLists) (j : Nat) :
    (multSum j (process_reduce_lists_of_reaction_no s).sources : Int)
      - multSum j (process_reduce_lists_of_reaction_no s).losses
      = (multSum j s.sources : Int) - multSum j s.losses := by
  simp only [process_reduce_lists_of_reaction_no, multSum_compact]
  exact reduceOuter_net s.sources s.losses j

theorem compact_ids_nodup (l : List (Nat × Nat)) (h : (l.map Prod.fst).Nodup) :
    (((compactLists l).map Prod.fst)).Nodup :=
  h.sublist ((List.filter_sublist l).map Prod.fst)

theorem process_reduce_sources_nodup (s : SpeciesLists)
    (h : (s.sources.map Prod.fst).Nodup) :
    (((process_reduce_lists_of_reaction_no s).sources).map Prod.fst).Nodup := by
  apply compact_ids_nodup
  rw [reduceOuter_src_ids]
  exact h

theorem process_reduce_losses_nodup (s : SpeciesLists)
    (h : (s.losses.map Prod.fst).Nodup) :
    (((process_reduce_lists_of_reaction_no s).losses).map Prod.fst).Nodup := by
  apply compact_ids_nodup
  rw [reduceOuter_loss_ids]
  exact h

/-- C1: for every species `i` and every reaction (id `k + 1`, the
`k`-th entry of the reaction table), the final source multiplier of
the compacted list produced by `process_reduce_lists_of_reaction_no`
on the raw incidence lists of `set_balance_equations` minus the final
loss multiplier (each read as `0` when the reaction is absent from the
compacted list) equals the raw count of product slots of that reaction
referencing `i` minus the raw count of reactant slots referencing
`i`. -/
theorem dedup_preserves_net_multiplier (rs : List Reaction) (i k : Nat)
    (h : k < rs.length) :
    (lookupMult (k + 1)
        (process_reduce_lists_of_reaction_no (set_balance_equations_raw i rs)).sources : Int)
      - lookupMult (k + 1)
        (process_reduce_lists_of_reaction_no (set_balance_equations_raw i rs)).losses
      = (countOcc i (rs.get ⟨k, h⟩).products : Int)
        - countOcc i (rs.get ⟨k, h⟩).reactants := by
  have hnodS : (((set_balance_equations_raw i rs).sources).map Prod.fst).Nodup :=
    raw_sources_nodup i rs 1
  have hnodL : (((set_balance_equations_raw i rs).losses).map Prod.fst).Nodup :=
    raw_losses_nodup i rs 1
  rw [lookupMult_eq_multSum _ _ (process_reduce_sources_nodup _ hnodS),
    lookupMult_eq_multSum _ _ (process_reduce_losses_nodup _ hnodL)]
  have hnet := process_reduce_net (set_balance_equations_raw i rs) (k + 1)
  have h1 := raw_sources_multSum i rs 1 k h
  have h2 := raw_losses_multSum i rs 1 k h
  rw [Nat.add_comm 1 k] at h1 h2
  rw [hnet]
  rw [show (set_balance_equations_raw i rs).sources
      = (raw_balance_lists i 1 rs).sources from rfl,
    show (set_balance_equations_raw i rs).losses
      = (raw_balance_lists i 1 rs).losses from rfl, h1, h2]

/-- Witness for C1: one reaction `1` with reactant slots `[1, 1]` and
product slot `[1]`; for species `1` the net multiplier `-1` is
preserved by the deduplication pass. -/
theorem dedup_preserves_net_multiplier_witness :
    0 < ([(⟨[1, 1], [1]⟩ : Reaction)] : List Reaction).length ∧
    (lookupMult 1
        (process_reduce_lists_of_reaction_no
          (set_balance_equations_raw 1 [(⟨[1, 1], [1]⟩ : Reaction)])).sources : Int)
      - lookupMult 1
        (process_reduce_lists_of_reaction_no
          (set_balance_equations_raw 1 [(⟨[1, 1], [1]⟩ : Reaction)])).losses
      = (countOcc 1 (([(⟨[1, 1], [1]⟩ : Reaction)] : List Reaction).get
          ⟨0, by decide⟩).products : Int)
        - countOcc 1 (([(⟨[1, 1], [1]⟩ : Reaction)] : List Reaction).get
          ⟨0, by decide⟩).reactants :=
  ⟨by decide, dedup_preserves_net_multiplier [(⟨[1, 1], [1]⟩ : Reaction)] 1 0 (by decide)⟩

theorem reduceInner_not_mem (sr sm : Nat) (ls : List (Nat × Nat))
    (h : sr ∉ ls.map Prod.fst) : reduceInner sr sm ls = (sm, ls) := by
  induction ls generalizing sm with
  | nil => rfl
  | cons p rest ih =>
    obtain ⟨lr, lm⟩ := p
    simp only [List.map_cons, List.mem_cons] at h
    push_neg at h
    have hne : ¬sr = lr := h.1
    simp only [reduceInner, if_neg hne, ih sm h.2]

theorem reduceOuter_disjoint (ss ls : List (Nat × Nat))
    (h : ∀ x ∈ ss.map Prod.fst, x ∉ ls.map Prod.fst) :
    reduceOuter ss ls = (ss, ls) := by
  induction ss generalizing ls with
  | nil => rfl
  | cons p rest ih =>
    obtain ⟨sr, sm⟩ := p
    have hsr : sr ∉ ls.map Prod.fst := by
      apply h
      simp
    have hin := reduceInner_not_mem sr sm ls hsr
    have hrest := ih ls fun x hx => h x (by simp [hx])
    simp only [reduceOuter, hin, hrest]

theorem compact_eq_self (l : List (Nat × Nat)) (h : ∀ p ∈ l, 0 < p.2) :
    compactLists l = l := by
  apply List.filter_eq_self.mpr
  intro p hp
  simpa using h p hp

theorem mem_compact (l : List (Nat × Nat)) (p : Nat × Nat)
    (hp : p ∈ compactLists l) : p ∈ l ∧ 0 < p.2 := by
  have := List.mem_filter.mp hp
  exact ⟨this.1, by simpa using this.2⟩

theorem reduceInner_resolve (sr : Nat) (ls : List (Nat × Nat))
    (hn : (ls.map Prod.fst).Nodup) :
    ∀ sm, (reduceInner sr sm ls).1 = sm - multSum sr ls ∧
      multSum sr (reduceInner sr sm ls).2 = multSum sr ls - sm := by
  induction ls with
  | nil => intro sm; simp [reduceInner, multSum]
  | cons p rest ih =>
    intro sm
    obtain ⟨lr, lm⟩ := p
    simp only [List.map_cons, List.nodup_cons] at hn
    by_cases hlr : sr = lr
    · have hrz : multSum sr rest = 0 :=
        multSum_eq_zero_of_not_mem sr rest (hlr ▸ hn.1)
      simp only [reduceInner, if_pos hlr]
      split_ifs with h1 h2
      · have h0 := (ih hn.2) 0
        simp [multSum, hlr.symm, hrz] at *
        omega
      · have h0 := (ih hn.2) (sm - lm)
        simp [multSum, hlr.symm, hrz] at *
        omega
      · have h0 := (ih hn.2) 0
        simp [multSum, hlr.symm, hrz] at *
        omega
    · have hne : lr ≠ sr := fun h => hlr h.symm
      have h0 := (ih hn.2) sm
      simp only [reduceInner, if_neg hlr]
      simp [multSum, hne] at *
      omega

theorem reduceOuter_resolve (ss : List (Nat × Nat)) :
    ∀ ls, (ss.map Prod.fst).Nodup → (ls.map Prod.fst).Nodup → ∀ j,
      multSum j (reduceOuter ss ls).1 = multSum j ss - multSum j ls ∧
      multSum j (reduceOuter ss ls).2 = multSum j ls - multSum j ss := by
  induction ss with
  | nil => intro ls _ _ j; simp [reduceOuter, multSum]
  | cons p rest ih =>
    intro ls hs hl j
    obtain ⟨sr, sm⟩ := p
    simp only [List.map_cons, List.nodup_cons] at hs
    have hlids : (((reduceInner sr sm ls).2).map Prod.fst).Nodup := by
      rw [reduceInner_ids]
      exact hl
    have hih := ih (reduceInner sr sm ls).2 hs.2 hlids j
    by_cases hj : j = sr
    · have hsr_rest : multSum sr rest = 0 :=
        multSum_eq_zero_of_not_mem sr rest hs.1
    -- the single matching loss entry is fully resolved against `sm`
      have hres := (reduceInner_resolve sr ls hl) sm
      rw [hj] at hih ⊢
      simp only [reduceOuter]
      simp [multSum, hsr_rest] at *
      omega
    · have hin := reduceInner_multSum_ne sr j hj ls sm
      have hns : sr ≠ j := fun h => hj h.symm
      simp only [reduceOuter]
      simp [multSum, hns] at *
      omega

theorem process_reduce_sources_pos (s : SpeciesLists) (p : Nat × Nat)
    (hp : p ∈ (process_reduce_lists_of_reaction_no s).sources) : 0 < p.2 :=
  (mem_compact _ p hp).2

theorem process_reduce_losses_pos (s : SpeciesLists) (p : Nat × Nat)
    (hp : p ∈ (process_reduce_lists_of_reaction_no s).losses) : 0 < p.2 :=
  (mem_compact _ p hp).2

theorem process_reduce_disjoint (s : SpeciesLists)
    (hs : (s.sources.map Prod.fst).Nodup) (hl : (s.losses.map Prod.fst).Nodup) :
    ∀ x ∈ ((process_reduce_lists_of_reaction_no s).sources).map Prod.fst,
      x ∉ ((process_reduce_lists_of_reaction_no s).losses).map Prod.fst := by
  intro x hxs hxl
  rcases List.mem_map.mp hxs with ⟨p, hp, hpx⟩
  rcases List.mem_map.mp hxl with ⟨q, hq, hqx⟩
  have hp' := mem_compact _ p hp
  have hq' := mem_compact _ q hq
  have hps : 0 < multSum x (reduceOuter s.sources s.losses).1 :=
    pos_multSum_of_mem x _ p hp'.1 hpx hp'.2
  have hqs : 0 < multSum x (reduceOuter s.sources s.losses).2 :=
    pos_multSum_of_mem x _ q hq'.1 hqx hq'.2
  have hres := reduceOuter_resolve s.sources s.losses hs hl x
  omega

/-- After one deduplication pass over scan-produced lists, rerunning
the overlap-resolution loop changes nothing (no reaction id is shared
between the compacted source and loss lists), and rerunning the
compaction changes nothing (all remaining multipliers are
positive). -/
theorem process_reduce_idempotent_of_nodup (s : SpeciesLists)
    (hs : (s.sources.map Prod.fst).Nodup) (hl : (s.losses.map Prod.fst).Nodup) :
    process_reduce_lists_of_reaction_no (process_reduce_lists_of_reaction_no s)
      = process_reduce_lists_of_reaction_no s := by
  have hro := reduceOuter_disjoint
    (process_reduce_lists_of_reaction_no s).sources
    (process_reduce_lists_of_reaction_no s).losses
    (process_reduce_disjoint s hs hl)
  show (⟨compactLists (reduceOuter _ _).1, compactLists (reduceOuter _ _).2⟩ : SpeciesLists) = _
  rw [hro]
  simp only
  rw [compact_eq_self _ (process_reduce_sources_pos s),
    compact_eq_self _ (process_reduce_losses_pos s)]

/-- C2: the deduplication-and-compaction pass is idempotent on the raw
incidence lists produced by the per-reaction scan of
`set_balance_equations` (in which each reaction id appears at most
once per list, with positive multipliers): running it twice equals
running it once, lists, multipliers and length counters included. -/
theorem process_reduce_lists_idempotent (rs : List Reaction) (i : Nat) :
    process_reduce_lists_of_reaction_no
        (process_reduce_lists_of_reaction_no (set_balance_equations_raw i rs))
      = process_reduce_lists_of_reaction_no (set_balance_equations_raw i rs) :=
  process_reduce_idempotent_of_nodup _ (raw_sources_nodup i rs 1) (raw_losses_nodup i rs 1)

/-- `NO_SPECIES` (constants.py line 8). -/
def NO_SPECIES : Nat := 53

/-- `NO_REACTIONS` (constants.py line 9). -/
def NO_REACTIONS : Nat := 624

/-- `SPECIES_CONTAINING_H` (constants.py lines 12–14): species indices
that contain hydrogen, used by the `[H2O] == 0` shortcut. -/
def SPECIES_CONTAINING_H : List Nat :=
  [11, 12, 13, 14, 15, 16, 26, 27, 32, 44, 45, 46, 47, 48, 49, 50]

/-- `Species.MINIMUM_DENSITY = 1.0e-3` (species.py line 14). -/
def MINIMUM_DENSITY : ℚ := 1 / 1000

/-- `Species.set_density` (species.py lines 35–39): a value below the
minimum-density threshold is stored as exactly `0`, any other value is
stored unchanged. -/
def set_density (density_value : ℚ) : ℚ :=
  if density_value < MINIMUM_DENSITY then 0 else density_value

/-- C7: the density floor.  Any input below the `1e-3` threshold
(negative inputs included) is stored as exactly `0`; any input at or
above it is stored unchanged; hence a stored density is never negative
and never lies strictly between `0` and the threshold. -/
theorem set_density_floor (x : ℚ) :
    (x < MINIMUM_DENSITY → set_density x = 0) ∧
    (MINIMUM_DENSITY ≤ x → set_density x = x) ∧
    0 ≤ set_density x ∧
    ¬(0 < set_density x ∧ set_density x < MINIMUM_DENSITY) := by
  unfold set_density MINIMUM_DENSITY
  split_ifs with h
  · refine ⟨fun _ => rfl, fun hc => absurd (lt_of_lt_of_le h hc) (lt_irrefl x), le_refl 0, ?_⟩
    rintro ⟨hc, -⟩
    exact absurd hc (lt_irrefl 0)
  · push_neg at h
    refine ⟨fun hc => absurd hc (not_lt.mpr h), fun _ => rfl, ?_, ?_⟩
    · calc (0 : ℚ) ≤ 1 / 1000 := by norm_num
        _ ≤ x := h
    · rintro ⟨-, hc⟩
      exact absurd hc (not_lt.mpr h)

/-- Witness for C7 at the inputs `1/2000` (below the floor, stored as
`0`) and `2` (above the floor, stored unchanged). -/
theorem set_density_floor_witness :
    set_density (1 / 2000) = 0 ∧ set_density 2 = 2 :=
  ⟨(set_density_floor (1 / 2000)).1 (by norm_num [MINIMUM_DENSITY]),
   (set_density_floor 2).2.1 (by norm_num [MINIMUM_DENSITY])⟩

/-- State of the `GlobalModel` object (globalmodel.py lines 14–30),
with the per-species and per-reaction tables modelled as functions of
the index.  `density`, `loss`, `source` are the `Species` fields;
`sourcesOf i` / `lossesOf i` are species `i`'s deduplicated incidence
lists (`(reaction_no, multiplier)` pairs, slots `1 .. count`);
`reactantsOf j` is reaction `j`'s reactant slot list and `rate j` its
current rate constant.  `rateLaw` models the external rate-law
collaborator `Reaction.set_reaction_rate(j, gas_T, electron_T)` and
`expFn` the `math.exp` function, both opaque to this core. -/
structure GM where
  density : Nat → ℚ
  loss : Nat → ℚ
  source : Nat → ℚ
  sourcesOf : Nat → List (Nat × Nat)
  lossesOf : Nat → List (Nat × Nat)
  reactantsOf : Nat → List Nat
  rate : Nat → ℚ
  rateLaw : Nat → ℚ → ℚ → ℚ
  expFn : ℚ → ℚ
  peak_electron_temperature_kelvin : ℚ
  electron_temperature_kelvin : ℚ
  gas_temperature_kelvin : ℚ
  step_count : Int
  dt : ℚ
  simulation_time : ℚ
  last_saved_simulation_time : ℚ
  plasma_time : ℚ
  total_time : ℚ

/-- Product of the current densities over the reactant slots of
reaction `j`: the `aux_density` accumulation of
`process_balance_equations` (globalmodel.py lines 143–146 and
157–161), a literal product so a repeated reactant contributes its
density squared. -/
def reactant_density_product (st : GM) (j : Nat) : ℚ :=
  (st.reactantsOf j).foldl (fun acc r => acc * st.density r) 1

/-- Loss accumulation loop of `process_balance_equations`
(globalmodel.py lines 139–152), starting from accumulator value `v`:
for each `(j, mult)` in the loss list, add
`rate(j) * density_product(j) * mult`. -/
def loss_accum (st : GM) (i : Nat) (v : ℚ) : ℚ :=
  (st.lossesOf i).foldl
    (fun acc p => acc + st.rate p.1 * reactant_density_product st p.1 * (p.2 : ℚ)) v

/-- Source accumulation loop of `process_balance_equations`
(globalmodel.py lines 154–167), same shape over the source list. -/
def source_accum (st : GM) (i : Nat) (v : ℚ) : ℚ :=
  (st.sourcesOf i).foldl
    (fun acc p => acc + st.rate p.1 * reactant_density_product st p.1 * (p.2 : ℚ)) v

/-- One iteration `i` of the balance loop (globalmodel.py lines
131–167): both accumulators are reset to `0`; when the carrier
species' (`H2O`, index 53) density is exactly zero and `i` is in the
hydrogen membership set, the iteration stops there (`continue`);
otherwise the loss list is replayed only when `density(i) > 0` and the
source list is replayed unconditionally.  The two successive writes to
an accumulator slot collapse to the final value; each accumulation
starts from the just-reset value `0`, and neither accumulation reads
the `loss`/`source` fields, so the writes commute with them. -/
def process_balance_step (st : GM) (i : Nat) : GM :=
  if st.density 53 = 0 ∧ i ∈ SPECIES_CONTAINING_H then
    { st with loss := Function.update st.loss i 0,
              source := Function.update st.source i 0 }
  else if 0 < st.density i then
    { st with loss := Function.update st.loss i (loss_accum st i 0),
              source := Function.update st.source i (source_accum st i 0) }
  else
    { st with loss := Function.update st.loss i 0,
              source := Function.update st.source i (source_accum st i 0) }

/-- `GlobalModel.process_balance_equations` (globalmodel.py lines
130–167): the balance loop over species `range(1, 51)`. -/
def process_balance_equations (st : GM) : GM :=
  (List.range' 1 50).foldl process_balance_step st

/-- One iteration `i` of the explicit update loop (globalmodel.py
lines 170–186): nothing happens unless `loss > 0` or `source > 0`; the
overshoot warning (lines 175–182) is a print with no state effect; the
density is rewritten (through the `set_density` floor) only when
`source − loss ≠ 0`. -/
def process_time_step_step (st : GM) (i : Nat) : GM :=
  if 0 < st.loss i ∨ 0 < st.source i then
    if st.source i - st.loss i ≠ 0 then
      { st with density := (Function.update st.density i
          (set_density (st.density i + (st.source i - st.loss i) * st.dt))) }
    else st
  else st

/-- `GlobalModel.process_time_step_species_densities` (globalmodel.py
lines 169–186): the update loop over species `range(1, 51)`. -/
def process_time_step_species_densities (st : GM) : GM :=
  (List.range' 1 50).foldl process_time_step_step st

theorem balance_step_eq (st : GM) (i : Nat) :
    process_balance_step st i
      = { st with loss := (process_balance_step st i).loss,
                  source := (process_balance_step st i).source } := by
  unfold process_balance_step
  split_ifs <;> rfl

theorem balance_fold_eq (l : List Nat) : ∀ st : GM,
    l.foldl process_balance_step st
      = { st with loss := (l.foldl process_balance_step st).loss,
                  source := (l.foldl process_balance_step st).source } := by
  induction l with
  | nil => intro st; rfl
  | cons j rest ih =>
    intro st
    rw [List.foldl_cons, ih (process_balance_step st j)]
    rw [balance_step_eq st j]

theorem balance_step_density (st : GM) (i : Nat) :
    (process_balance_step st i).density = st.density := by
  rw [balance_step_eq st i]

theorem balance_step_rate (st : GM) (i : Nat) :
    (process_balance_step st i).rate = st.rate := by
  rw [balance_step_eq st i]

theorem balance_step_lossesOf (st : GM) (i : Nat) :
    (process_balance_step st i).lossesOf = st.lossesOf := by
  rw [balance_step_eq st i]

theorem balance_step_sourcesOf (st : GM) (i : Nat) :
    (process_balance_step st i).sourcesOf = st.sourcesOf := by
  rw [balance_step_eq st i]

theorem balance_step_reactantsOf (st : GM) (i : Nat) :
    (process_balance_step st i).reactantsOf = st.reactantsOf := by
  rw [balance_step_eq st i]

theorem loss_accum_congr (st st' : GM) (hd : st'.density = st.density)
    (hr : st'.rate = st.rate) (hl : st'.lossesOf = st.lossesOf)
    (hre : st'.reactantsOf = st.reactantsOf) (i : Nat) (v : ℚ) :
    loss_accum st' i v = loss_accum st i v := by
  simp only [loss_accum, reactant_density_product, hd, hr, hl, hre]

theorem source_accum_congr (st st' : GM) (hd : st'.density = st.density)
    (hr : st'.rate = st.rate) (hs : st'.sourcesOf = st.sourcesOf)
    (hre : st'.reactantsOf = st.reactantsOf) (i : Nat) (v : ℚ) :
    source_accum st' i v = source_accum st i v := by
  simp only [source_accum, reactant_density_product, hd, hr, hs, hre]

theorem balance_step_loss_ne (st : GM) (i j : Nat) (h : i ≠ j) :
    (process_balance_step st j).loss i = st.loss i := by
  unfold process_balance_step
  split_ifs <;> simp [Function.update_noteq h]

theorem balance_step_source_ne (st : GM) (i j : Nat) (h : i ≠ j) :
    (process_balance_step st j).source i = st.source i := by
  unfold process_balance_step
  split_ifs <;> simp [Function.update_noteq h]

theorem balance_step_loss_self (st : GM) (i : Nat) :
    (process_balance_step st i).loss i
      = (if st.density 53 = 0 ∧ i ∈ SPECIES_CONTAINING_H then 0
         else if 0 < st.density i then loss_accum st i 0 else 0) := by
  unfold process_balance_step
  split_ifs <;> simp [Function.update_same]

theorem balance_step_source_self (st : GM) (i : Nat) :
    (process_balance_step st i).source i
      = (if st.density 53 = 0 ∧ i ∈ SPECIES_CONTAINING_H then 0
         else source_accum st i 0) := by
  unfold process_balance_step
  split_ifs <;> simp [Function.update_same]

theorem balance_fold_untouched (l : List Nat) : ∀ (st : GM) (i : Nat), i ∉ l →
    (l.foldl process_balance_step st).loss i = st.loss i ∧
    (l.foldl process_balance_step st).source i = st.source i := by
  induction l with
  | nil => intro st i _; exact ⟨rfl, rfl⟩
  | cons j rest ih =>
    intro st i h
    have hne : i ≠ j := fun hc => h (hc ▸ List.mem_cons_self j rest)
    have hrest : i ∉ rest := fun hc => h (List.mem_cons_of_mem j hc)
    have hih := ih (process_balance_step st j) i hrest
    rw [List.foldl_cons]
    exact ⟨hih.1.trans (balance_step_loss_ne st i j hne),
      hih.2.trans (balance_step_source_ne st i j hne)⟩

theorem balance_fold_spec (l : List Nat) : ∀ (st : GM) (i : Nat), i ∈ l →
    (l.foldl process_balance_step st).loss i
      = (if st.density 53 = 0 ∧ i ∈ SPECIES_CONTAINING_H then 0
         else if 0 < st.density i then loss_accum st i 0 else 0) ∧
    (l.foldl process_balance_step st).source i
      = (if st.density 53 = 0 ∧ i ∈ SPECIES_CONTAINING_H then 0
         else source_accum st i 0) := by
  induction l with
  | nil => intro st i h; cases h
  | cons j rest ih =>
    intro st i h
    rw [List.foldl_cons]
    by_cases hm : i ∈ rest
    · have hih := ih (process_balance_step st j) i hm
      have hd := balance_step_density st j
      have hla := loss_accum_congr st (process_balance_step st j) hd
        (balance_step_rate st j) (balance_step_lossesOf st j)
        (balance_step_reactantsOf st j) i 0
      have hsa := source_accum_congr st (process_balance_step st j) hd
        (balance_step_rate st j) (balance_step_sourcesOf st j)
        (balance_step_reactantsOf st j) i 0
      rw [hd, hla, hsa] at hih
      exact hih
    · have hj : i = j := by
        rcases List.mem_cons.mp h with h' | h'
        · exact h'
        · exact absurd h' hm
      subst hj
      have hun := balance_fold_untouched rest (process_balance_step st i) i hm
      exact ⟨hun.1.trans (balance_step_loss_self st i),
        hun.2.trans (balance_step_source_self st i)⟩

/-- C3: in every balance evaluation, for each evaluated species
(`1 ≤ i < 51`) the final accumulators are independent of their prior
values (they are reset first): the loss equals the replayed loss list
only when `density(i) > 0` and is `0` otherwise, the source equals the
replayed source list unconditionally — except that when the carrier
species' (`H2O`, index 53) density is exactly zero and `i` is in the
fixed hydrogen membership set, both are skipped and left at `0`. -/
theorem balance_equations_characterization (st : GM) (i : Nat)
    (h1 : 1 ≤ i) (h2 : i < 51) :
    (process_balance_equations st).loss i
      = (if st.density 53 = 0 ∧ i ∈ SPECIES_CONTAINING_H then 0
         else if 0 < st.density i then loss_accum st i 0 else 0) ∧
    (process_balance_equations st).source i
      = (if st.density 53 = 0 ∧ i ∈ SPECIES_CONTAINING_H then 0
         else source_accum st i 0) := by
  have hmem : i ∈ List.range' 1 50 := by
    rw [List.mem_range'_1]
    omega
  unfold process_balance_equations
  exact balance_fold_spec (List.range' 1 50) st i hmem

theorem time_step_step_eq (st : GM) (i : Nat) :
    process_time_step_step st i
      = { st with density := (process_time_step_step st i).density } := by
  unfold process_time_step_step
  split_ifs <;> rfl

theorem time_step_step_loss (st : GM) (i : Nat) :
    (process_time_step_step st i).loss = st.loss := by
  rw [time_step_step_eq st i]

theorem time_step_step_source (st : GM) (i : Nat) :
    (process_time_step_step st i).source = st.source := by
  rw [time_step_step_eq st i]

theorem time_step_step_density_ne (st : GM) (i j : Nat) (h : i ≠ j) :
    (process_time_step_step st j).density i = st.density i := by
  unfold process_time_step_step
  split_ifs <;> simp [Function.update_noteq h]

theorem time_step_step_balanced (st : GM) (i : Nat)
    (h : st.source i = st.loss i) : process_time_step_step st i = st := by
  unfold process_time_step_step
  split_ifs with h1 h2
  · exact absurd (by rw [h]; ring) h2
  · rfl
  · rfl

theorem time_step_fold_balanced (l : List Nat) : ∀ (st : GM) (i : Nat),
    st.source i = st.loss i →
    (l.foldl process_time_step_step st).density i = st.density i := by
  induction l with
  | nil => intro st i _; rfl
  | cons j rest ih =>
    intro st i h
    rw [List.foldl_cons]
    by_cases hj : j = i
    · subst hj
      rw [time_step_step_balanced st j h]
      exact ih st j h
    · have hne : i ≠ j := fun hc => hj hc.symm
      have h' : (process_time_step_step st j).source i
          = (process_time_step_step st j).loss i := by
        rw [time_step_step_loss, time_step_step_source]
        exact h
      exact (ih (process_time_step_step st j) i h').trans
        (time_step_step_density_ne st i j hne)

/-- C4: the zero-balance no-op.  In any call to
`process_time_step_species_densities`, a species (`1 ≤ i < 51`) whose
source accumulator equals its loss accumulator keeps its stored
density unchanged: no write occurs, so the value is not re-clamped
through the density floor either. -/
theorem zero_balance_no_op (st : GM) (i : Nat) (_h1 : 1 ≤ i) (_h2 : i < 51)
    (hbal : st.source i = st.loss i) :
    (process_time_step_species_densities st).density i = st.density i := by
  unfold process_time_step_species_densities
  exact time_step_fold_balanced (List.range' 1 50) st i hbal

/-- Trivial instance of the abstract `math.exp` collaborator, used to
close concrete witness statements. -/
def zero_exp : ℚ → ℚ := fun _ => 0

/-- Trivial instance of the abstract rate-law collaborator, used to
close concrete witness statements. -/
def zero_rate_law : Nat → ℚ → ℚ → ℚ := fun _ _ _ => 0

/-- Model state after `GlobalModel.__init__` (globalmodel.py lines
15–30) followed by `set_default_species_densities` (lines 65–75), with
the two external collaborators passed as parameters and the incidence
lists still empty (as before `set_balance_equations` runs).  The
default densities are `2.40e25` (index 0), `1.00e3` (electrons, 17),
`1.92e25` (N2, 51), `4.80e24` (O2, 52), `1.20e24` (H2O, 53), zero
elsewhere; `dt = 50e-12`, `plasma_time = 1e-9`, `total_time = 1e-6`,
`last_saved_simulation_time = -1.0`, temperatures `298.0`. -/
def init_state (expFn : ℚ → ℚ) (rateLaw : Nat → ℚ → ℚ → ℚ) : GM where
  density := fun i =>
    if i = 0 then 24000000000000000000000000
    else if i = 17 then 1000
    else if i = 51 then 19200000000000000000000000
    else if i = 52 then 4800000000000000000000000
    else if i = 53 then 1200000000000000000000000
    else 0
  loss := fun _ => 0
  source := fun _ => 0
  sourcesOf := fun _ => []
  lossesOf := fun _ => []
  reactantsOf := fun _ => []
  rate := fun _ => 0
  rateLaw := rateLaw
  expFn := expFn
  peak_electron_temperature_kelvin := 298
  electron_temperature_kelvin := 298
  gas_temperature_kelvin := 298
  step_count := 0
  dt := 1 / 20000000000
  simulation_time := 0
  last_saved_simulation_time := -1
  plasma_time := 1 / 1000000000
  total_time := 1 / 1000000

/-- Default-initialized model with the trivial collaborators. -/
def default_model : GM := init_state zero_exp zero_rate_law

/-- Witness for C3 at the default-initialized model and species 1. -/
theorem balance_equations_characterization_witness :
    (1 ≤ 1 ∧ 1 < 51) ∧
    ((process_balance_equations default_model).loss 1
      = (if default_model.density 53 = 0 ∧ 1 ∈ SPECIES_CONTAINING_H then 0
         else if 0 < default_model.density 1 then loss_accum default_model 1 0 else 0) ∧
     (process_balance_equations default_model).source 1
      = (if default_model.density 53 = 0 ∧ 1 ∈ SPECIES_CONTAINING_H then 0
         else source_accum default_model 1 0)) :=
  ⟨⟨by decide, by decide⟩,
   balance_equations_characterization default_model 1 (by decide) (by decide)⟩

/-- Witness for C4 at the default-initialized model (all accumulators
are zero, so every species is exactly balanced) and species 1. -/
theorem zero_balance_no_op_witness :
    (1 ≤ 1 ∧ 1 < 51 ∧ default_model.source 1 = default_model.loss 1) ∧
    (process_time_step_species_densities default_model).density 1
      = default_model.density 1 :=
  ⟨⟨by decide, by decide, rfl⟩,
   zero_balance_no_op default_model 1 (by decide) (by decide) rfl⟩

/-- `GlobalModel.return_electron_temperature_kelvin_at_time`
(globalmodel.py lines 318–324): inside the pulse window the Gaussian
profile (through the abstract `expFn`; the source's `-0.5` is the
rational `-(1/2)`), outside it the gas temperature.  The source
initializes the result to the gas temperature and conditionally
overwrites it, which is this conditional. -/
def return_electron_temperature_kelvin_at_time (st : GM) : ℚ :=
  if st.simulation_time < 10 * st.plasma_time then
    st.gas_temperature_kelvin
      + (st.peak_electron_temperature_kelvin - st.gas_temperature_kelvin)
        * st.expFn (-(1 / 2)
            * ((st.simulation_time - 5 * st.plasma_time) / st.plasma_time) ^ 2)
  else
    st.gas_temperature_kelvin

/-- C9: the electron temperature profile.  For every state, when
`simulation_time < 10 * plasma_time` the returned temperature is
`gas_T + (peak_T - gas_T) * exp(-0.5 * ((t - 5 * plasma_time) /
plasma_time)^2)`, and when `simulation_time ≥ 10 * plasma_time` it is
exactly `gas_T`. -/
theorem electron_temperature_profile (st : GM) :
    (st.simulation_time < 10 * st.plasma_time →
      return_electron_temperature_kelvin_at_time st
        = st.gas_temperature_kelvin
          + (st.peak_electron_temperature_kelvin - st.gas_temperature_kelvin)
            * st.expFn (-(1 / 2)
                * ((st.simulation_time - 5 * st.plasma_time) / st.plasma_time) ^ 2)) ∧
    (10 * st.plasma_time ≤ st.simulation_time →
      return_electron_temperature_kelvin_at_time st = st.gas_temperature_kelvin) := by
  constructor
  · intro h
    rw [return_electron_temperature_kelvin_at_time, if_pos h]
  · intro h
    rw [return_electron_temperature_kelvin_at_time, if_neg (not_lt.mpr h)]

/-- Witness for C9: at the default model one second into the
simulation (past the pulse window) the returned temperature is the gas
temperature. -/
theorem electron_temperature_profile_witness :
    (10 * ({ default_model with simulation_time := 1 } : GM).plasma_time
        ≤ ({ default_model with simulation_time := 1 } : GM).simulation_time) ∧
    return_electron_temperature_kelvin_at_time
        { default_model with simulation_time := 1 }
      = ({ default_model with simulation_time := 1 } : GM).gas_temperature_kelvin :=
  ⟨by norm_num [default_model, init_state],
   (electron_temperature_profile { default_model with simulation_time := 1 }).2
     (by norm_num [default_model, init_state])⟩

/-- Python `int()` applied to a rational: truncation toward zero
(`Int` division of numerator by denominator). -/
def pyInt (q : ℚ) : Int := q.num / (q.den : Int)

/-- Decade table of `GlobalModel.return_save_interval_step`
(globalmodel.py lines 327–355): thirteen cascading
`if simulation_time <= 10^k` reassignments, tested from `1e3` down to
`1e-9`, leave the value of the last satisfied test — the nested
conditional below, with the smallest-threshold test outermost; when no
test holds the initial value 1 remains. -/
def save_interval_table (simulation_time : ℚ) : Int :=
  if simulation_time ≤ 1 / 1000000000 then 1
  else if simulation_time ≤ 1 / 100000000 then 10
  else if simulation_time ≤ 1 / 10000000 then 100
  else if simulation_time ≤ 1 / 1000000 then 1000
  else if simulation_time ≤ 1 / 100000 then 10000
  else if simulation_time ≤ 1 / 10000 then 100000
  else if simulation_time ≤ 1 / 1000 then 1000000
  else if simulation_time ≤ 1 / 100 then 10000000
  else if simulation_time ≤ 1 / 10 then 100000000
  else if simulation_time ≤ 1 then 1000000000
  else if simulation_time ≤ 10 then 10000000000
  else if simulation_time ≤ 100 then 100000000000
  else if simulation_time ≤ 1000 then 1000000000000
  else 1

/-- `GlobalModel.return_save_interval_step` (globalmodel.py lines
326–362): the decade-table value divided by
`ratio_factor = dt / 50e-12`, truncated by `int()`, clamped below at
1. -/
def return_save_interval_step (dt simulation_time : ℚ) : Int :=
  if pyInt ((save_interval_table simulation_time : ℚ)
      / (dt / (50 / 1000000000000))) < 1 then 1
  else pyInt ((save_interval_table simulation_time : ℚ)
      / (dt / (50 / 1000000000000)))

/-- C8: the save-interval policy.  At the reference step size
`dt = 50e-12` the interval is `10000` at `simulation_time = 1e-5` and
`1` at `1e-9`; and for every `simulation_time` and every `dt > 0` the
returned interval is at least 1. -/
theorem save_interval_policy :
    return_save_interval_step (1 / 20000000000) (1 / 100000) = 10000 ∧
    return_save_interval_step (1 / 20000000000) (1 / 1000000000) = 1 ∧
    ∀ dt simulation_time : ℚ, 0 < dt →
      1 ≤ return_save_interval_step dt simulation_time := by
  have ht1 : save_interval_table (1 / 100000) = 10000 := by
    norm_num [save_interval_table]
  have ht2 : save_interval_table (1 / 1000000000) = 1 := by
    norm_num [save_interval_table]
  refine ⟨?_, ?_, ?_⟩
  · rw [return_save_interval_step, ht1]
    norm_num [pyInt]
  · rw [return_save_interval_step, ht2]
    norm_num [pyInt]
  · intro dt simulation_time hdt
    unfold return_save_interval_step
    split_ifs with h
    · exact le_refl 1
    · omega

/-- Witness for C8: the universally quantified clamp at
`dt = simulation_time = 1`. -/
theorem save_interval_policy_witness :
    (0 : ℚ) < 1 ∧ 1 ≤ return_save_interval_step 1 1 :=
  ⟨by norm_num, save_interval_policy.2.2 1 1 (by norm_num)⟩


/-- One emitted data row of the persisted sample stream. -/
structure Sample where
  densities : List ℚ
  time : ℚ
  stepNo : Int

/-- Data row written by the main loop (globalmodel.py lines 214–217
and 238–241): the densities of species `1 .. NO_SPECIES`, the
simulation time and the step count (numeric values; the
6-significant-digit text formatting of `_fmt_float` is presentation
only and is not modelled). -/
def sample_row (st : GM) : Sample :=
  ⟨(List.range' 1 NO_SPECIES).map st.density, st.simulation_time, st.step_count⟩

/-- Sample gate of both loop bodies (globalmodel.py lines 210–213 and
234–237): a row is written when `step_count` is a multiple of the save
interval and `simulation_time` exceeds
`last_saved_simulation_time`. -/
def maybe_emit (st : GM) : List Sample :=
  if st.step_count % return_save_interval_step st.dt st.simulation_time = 0
      ∧ st.last_saved_simulation_time < st.simulation_time then
    [sample_row st]
  else []

/-- Time and step advance ending each loop body (globalmodel.py lines
220–221 and 244–245). -/
def advance_time (st : GM) : GM :=
  { st with simulation_time := st.simulation_time + st.dt,
            step_count := st.step_count + 1 }

/-- `GlobalModel.set_reaction_rates` (globalmodel.py lines 95–97):
refresh the rate constants of reactions `1 .. NO_REACTIONS` from the
collaborator at the current temperatures. -/
def set_reaction_rates (st : GM) : GM :=
  { st with rate := fun j =>
      if 1 ≤ j ∧ j ≤ NO_REACTIONS then
        st.rateLaw j st.gas_temperature_kelvin st.electron_temperature_kelvin
      else st.rate j }

/-- Electron-temperature refresh at the top of each pulse iteration
(globalmodel.py line 204). -/
def refresh_electron_temperature (st : GM) : GM :=
  { st with electron_temperature_kelvin :=
      return_electron_temperature_kelvin_at_time st }

/-- State in the middle of one pulse-phase iteration, after the
temperature and rate refresh, the balance evaluation and the density
update (globalmodel.py lines 204–208) but before the conditional
sample and the advance. -/
def pulse_mid (st : GM) : GM :=
  process_time_step_species_densities (process_balance_equations
    (set_reaction_rates (refresh_electron_temperature st)))

/-- Body of one pulse-phase iteration (globalmodel.py lines 204–221):
temperature and rate refresh, balance evaluation, density update,
conditional sample, then time/step advance. -/
def pulse_body (st : GM) : GM × List Sample :=
  (advance_time (pulse_mid st), maybe_emit (pulse_mid st))

/-- Pulse loop (globalmodel.py lines 200–221) run for at most `n`
iterations; the loop exits once `simulation_time` reaches either
`total_time` or `10 * plasma_time`.  A safety property proved for
every `n` covers the unbounded loop. -/
def run_pulse : Nat → GM → GM × List Sample
  | 0, st => (st, [])
  | n + 1, st =>
    if st.total_time ≤ st.simulation_time
        ∨ 10 * st.plasma_time ≤ st.simulation_time then (st, [])
    else
      ((run_pulse n (pulse_body st).1).1,
       (pulse_body st).2 ++ (run_pulse n (pulse_body st).1).2)

/-- State in the middle of one afterglow iteration (globalmodel.py
lines 231–232): balance evaluation and density update only. -/
def afterglow_mid (st : GM) : GM :=
  process_time_step_species_densities (process_balance_equations st)

/-- Body of one afterglow iteration (globalmodel.py lines 231–245):
as the pulse body but with no temperature or rate refresh. -/
def afterglow_body (st : GM) : GM × List Sample :=
  (advance_time (afterglow_mid st), maybe_emit (afterglow_mid st))

/-- Afterglow loop (globalmodel.py lines 227–245) run for at most `n`
iterations; exits once `simulation_time` reaches `total_time`. -/
def run_afterglow : Nat → GM → GM × List Sample
  | 0, st => (st, [])
  | n + 1, st =>
    if st.total_time ≤ st.simulation_time then (st, [])
    else
      ((run_afterglow n (afterglow_body st).1).1,
       (afterglow_body st).2 ++ (run_afterglow n (afterglow_body st).1).2)

/-- One-time temperature and rate refresh between the two loops
(globalmodel.py lines 223–224). -/
def afterglow_prep (st : GM) : GM :=
  set_reaction_rates (refresh_electron_temperature st)

/-- `GlobalModel.process_main_loop` (globalmodel.py lines 192–245)
bounded by `n1` pulse and `n2` afterglow iterations: the pulse loop,
the boundary refresh, then the afterglow loop; the result pairs the
final state with the emitted data rows in order.  (The header line and
the console prints are I/O with no state effect.) -/
def process_main_loop (n1 n2 : Nat) (st : GM) : GM × List Sample :=
  ((run_afterglow n2 (afterglow_prep (run_pulse n1 st).1)).1,
   (run_pulse n1 st).2
     ++ (run_afterglow n2 (afterglow_prep (run_pulse n1 st).1)).2)

theorem balance_equations_density (st : GM) :
    (process_balance_equations st).density = st.density := by
  rw [process_balance_equations, balance_fold_eq]

theorem balance_equations_dt (st : GM) :
    (process_balance_equations st).dt = st.dt := by
  rw [process_balance_equations, balance_fold_eq]

theorem balance_equations_time (st : GM) :
    (process_balance_equations st).simulation_time = st.simulation_time := by
  rw [process_balance_equations, balance_fold_eq]

theorem time_step_fold_eq (l : List Nat) : ∀ st : GM,
    l.foldl process_time_step_step st
      = { st with density := (l.foldl process_time_step_step st).density } := by
  induction l with
  | nil => intro st; rfl
  | cons j rest ih =>
    intro st
    rw [List.foldl_cons, ih (process_time_step_step st j)]
    rw [time_step_step_eq st j]

theorem time_step_densities_dt (st : GM) :
    (process_time_step_species_densities st).dt = st.dt := by
  rw [process_time_step_species_densities, time_step_fold_eq]

theorem time_step_densities_time (st : GM) :
    (process_time_step_species_densities st).simulation_time
      = st.simulation_time := by
  rw [process_time_step_species_densities, time_step_fold_eq]

theorem time_step_fold_density_not_mem (l : List Nat) : ∀ (st : GM) (j : Nat),
    j ∉ l → (l.foldl process_time_step_step st).density j = st.density j := by
  induction l with
  | nil => intro st j _; rfl
  | cons k rest ih =>
    intro st j h
    have hne : j ≠ k := fun hc => h (hc ▸ List.mem_cons_self k rest)
    have hrest : j ∉ rest := fun hc => h (List.mem_cons_of_mem k hc)
    rw [List.foldl_cons]
    exact (ih (process_time_step_step st k) j hrest).trans
      (time_step_step_density_ne st j k hne)

theorem time_step_densities_not_mem (st : GM) (j : Nat)
    (h : j ∉ List.range' 1 50) :
    (process_time_step_species_densities st).density j = st.density j := by
  unfold process_time_step_species_densities
  exact time_step_fold_density_not_mem (List.range' 1 50) st j h

theorem advance_time_density (st : GM) :
    (advance_time st).density = st.density := rfl

theorem advance_time_dt (st : GM) : (advance_time st).dt = st.dt := rfl

theorem advance_time_time (st : GM) :
    (advance_time st).simulation_time = st.simulation_time + st.dt := rfl

theorem pulse_mid_density (st : GM) (j : Nat) (h : j ∉ List.range' 1 50) :
    (pulse_mid st).density j = st.density j := by
  unfold pulse_mid
  rw [time_step_densities_not_mem _ j h, balance_equations_density]
  rfl

theorem pulse_mid_dt (st : GM) : (pulse_mid st).dt = st.dt := by
  unfold pulse_mid
  rw [time_step_densities_dt, balance_equations_dt]
  rfl

theorem pulse_mid_time (st : GM) :
    (pulse_mid st).simulation_time = st.simulation_time := by
  unfold pulse_mid
  rw [time_step_densities_time, balance_equations_time]
  rfl

theorem pulse_body_density (st : GM) (j : Nat) (h : j ∉ List.range' 1 50) :
    (pulse_body st).1.density j = st.density j := by
  show (advance_time (pulse_mid st)).density j = st.density j
  rw [advance_time_density, pulse_mid_density st j h]

theorem pulse_body_dt (st : GM) : (pulse_body st).1.dt = st.dt := by
  show (advance_time (pulse_mid st)).dt = st.dt
  rw [advance_time_dt, pulse_mid_dt]

theorem pulse_body_time (st : GM) :
    (pulse_body st).1.simulation_time = st.simulation_time + st.dt := by
  show (advance_time (pulse_mid st)).simulation_time = _
  rw [advance_time_time, pulse_mid_time, pulse_mid_dt]

theorem afterglow_mid_density (st : GM) (j : Nat) (h : j ∉ List.range' 1 50) :
    (afterglow_mid st).density j = st.density j := by
  unfold afterglow_mid
  rw [time_step_densities_not_mem _ j h, balance_equations_density]

theorem afterglow_mid_dt (st : GM) : (afterglow_mid st).dt = st.dt := by
  unfold afterglow_mid
  rw [time_step_densities_dt, balance_equations_dt]

theorem afterglow_mid_time (st : GM) :
    (afterglow_mid st).simulation_time = st.simulation_time := by
  unfold afterglow_mid
  rw [time_step_densities_time, balance_equations_time]

theorem afterglow_body_density (st : GM) (j : Nat) (h : j ∉ List.range' 1 50) :
    (afterglow_body st).1.density j = st.density j := by
  show (advance_time (afterglow_mid st)).density j = st.density j
  rw [advance_time_density, afterglow_mid_density st j h]

theorem afterglow_body_dt (st : GM) : (afterglow_body st).1.dt = st.dt := by
  show (advance_time (afterglow_mid st)).dt = st.dt
  rw [advance_time_dt, afterglow_mid_dt]

theorem afterglow_body_time (st : GM) :
    (afterglow_body st).1.simulation_time = st.simulation_time + st.dt := by
  show (advance_time (afterglow_mid st)).simulation_time = _
  rw [advance_time_time, afterglow_mid_time, afterglow_mid_dt]

theorem maybe_emit_times (st : GM) (s : Sample) (h : s ∈ maybe_emit st) :
    s.time = st.simulation_time := by
  unfold maybe_emit at h
  split_ifs at h
  · rw [List.mem_singleton.mp h]
    rfl
  · cases h

theorem pulse_body_emit_time (st : GM) (s : Sample)
    (h : s ∈ (pulse_body st).2) : s.time = st.simulation_time := by
  simp only [pulse_body] at h
  rw [maybe_emit_times (pulse_mid st) s h, pulse_mid_time]

theorem afterglow_body_emit_time (st : GM) (s : Sample)
    (h : s ∈ (afterglow_body st).2) : s.time = st.simulation_time := by
  simp only [afterglow_body] at h
  rw [maybe_emit_times (afterglow_mid st) s h, afterglow_mid_time]

theorem run_pulse_density (j : Nat) (hj : j ∉ List.range' 1 50) :
    ∀ (n : Nat) (st : GM), (run_pulse n st).1.density j = st.density j := by
  intro n
  induction n with
  | zero => intro st; rfl
  | succ n ih =>
    intro st
    by_cases hstop : st.total_time ≤ st.simulation_time
        ∨ 10 * st.plasma_time ≤ st.simulation_time
    · simp only [run_pulse, if_pos hstop]
    · simp only [run_pulse, if_neg hstop]
      exact (ih (pulse_body st).1).trans (pulse_body_density st j hj)

theorem run_afterglow_density (j : Nat) (hj : j ∉ List.range' 1 50) :
    ∀ (n : Nat) (st : GM), (run_afterglow n st).1.density j = st.density j := by
  intro n
  induction n with
  | zero => intro st; rfl
  | succ n ih =>
    intro st
    by_cases hstop : st.total_time ≤ st.simulation_time
    · simp only [run_afterglow, if_pos hstop]
    · simp only [run_afterglow, if_neg hstop]
      exact (ih (afterglow_body st).1).trans (afterglow_body_density st j hj)

theorem afterglow_prep_density (st : GM) :
    (afterglow_prep st).density = st.density := rfl

/-- C6: the background reservoirs.  Every balance evaluation and every
density update in the main loop iterates only over species `1 .. 50`,
so over any run the densities of species 0 (the aggregate `M`), 51
(`N2`), 52 (`O2`) and 53 (`H2O` = index `NO_SPECIES`) are never
modified. -/
theorem background_species_never_modified (st : GM) (n1 n2 : Nat) (j : Nat)
    (h : j = 0 ∨ j = 51 ∨ j = 52 ∨ j = 53) :
    (process_main_loop n1 n2 st).1.density j = st.density j := by
  have hj : j ∉ List.range' 1 50 := by
    rcases h with rfl | rfl | rfl | rfl <;> decide
  show (run_afterglow n2 (afterglow_prep (run_pulse n1 st).1)).1.density j
      = st.density j
  rw [run_afterglow_density j hj n2 _, afterglow_prep_density,
    run_pulse_density j hj n1 st]

/-- Witness for C6 at the default model, index 53, one iteration of
each phase. -/
theorem background_species_never_modified_witness :
    ((53 : Nat) = 0 ∨ (53 : Nat) = 51 ∨ (53 : Nat) = 52 ∨ (53 : Nat) = 53) ∧
    (process_main_loop 1 1 default_model).1.density 53
      = default_model.density 53 :=
  ⟨by decide, background_species_never_modified default_model 1 1 53 (by decide)⟩

theorem run_pulse_times (n : Nat) : ∀ st : GM, 0 < st.dt →
    (run_pulse n st).1.dt = st.dt ∧
    st.simulation_time ≤ (run_pulse n st).1.simulation_time ∧
    (∀ s ∈ (run_pulse n st).2,
      st.simulation_time ≤ s.time
        ∧ s.time < (run_pulse n st).1.simulation_time) ∧
    List.Pairwise (fun a b => a < b) (((run_pulse n st).2).map Sample.time) := by
  induction n with
  | zero =>
    intro st _
    exact ⟨rfl, le_refl _, fun s hs => absurd hs (List.not_mem_nil s),
      List.Pairwise.nil⟩
  | succ n ih =>
    intro st hdt
    by_cases hstop : st.total_time ≤ st.simulation_time
        ∨ 10 * st.plasma_time ≤ st.simulation_time
    · simp only [run_pulse, if_pos hstop]
      simp
    · simp only [run_pulse, if_neg hstop]
      have hbd := pulse_body_dt st
      have hbt := pulse_body_time st
      obtain ⟨hdt1, hle1, hbnd1, hpw1⟩ :=
        ih (pulse_body st).1 (by rw [hbd]; exact hdt)
      have htime1 : st.simulation_time < (pulse_body st).1.simulation_time := by
        rw [hbt]
        linarith
      refine ⟨by rw [hdt1, hbd], le_trans (le_of_lt htime1) hle1, ?_, ?_⟩
      · intro s hs
        rcases List.mem_append.mp hs with h1 | h1
        · have hts := pulse_body_emit_time st s h1
          exact ⟨le_of_eq hts.symm,
            by rw [hts]; exact lt_of_lt_of_le htime1 hle1⟩
        · have hb := hbnd1 s h1
          exact ⟨le_trans (le_of_lt htime1) hb.1, hb.2⟩
      · rw [List.map_append, List.pairwise_append]
        refine ⟨?_, hpw1, ?_⟩
        · simp only [pulse_body]
          unfold maybe_emit
          split_ifs <;> simp
        · intro a ha b hb
          rcases List.mem_map.mp ha with ⟨s, hs, rfl⟩
          rcases List.mem_map.mp hb with ⟨t, ht, rfl⟩
          have h1 := pulse_body_emit_time st s hs
          have h2 := (hbnd1 t ht).1
          rw [h1]
          exact lt_of_lt_of_le htime1 h2

theorem run_afterglow_times (n : Nat) : ∀ st : GM, 0 < st.dt →
    (run_afterglow n st).1.dt = st.dt ∧
    st.simulation_time ≤ (run_afterglow n st).1.simulation_time ∧
    (∀ s ∈ (run_afterglow n st).2,
      st.simulation_time ≤ s.time
        ∧ s.time < (run_afterglow n st).1.simulation_time) ∧
    List.Pairwise (fun a b => a < b)
      (((run_afterglow n st).2).map Sample.time) := by
  induction n with
  | zero =>
    intro st _
    exact ⟨rfl, le_refl _, fun s hs => absurd hs (List.not_mem_nil s),
      List.Pairwise.nil⟩
  | succ n ih =>
    intro st hdt
    by_cases hstop : st.total_time ≤ st.simulation_time
    · simp only [run_afterglow, if_pos hstop]
      simp
    · simp only [run_afterglow, if_neg hstop]
      have hbd := afterglow_body_dt st
      have hbt := afterglow_body_time st
      obtain ⟨hdt1, hle1, hbnd1, hpw1⟩ :=
        ih (afterglow_body st).1 (by rw [hbd]; exact hdt)
      have htime1 : st.simulation_time
          < (afterglow_body st).1.simulation_time := by
        rw [hbt]
        linarith
      refine ⟨by rw [hdt1, hbd], le_trans (le_of_lt htime1) hle1, ?_, ?_⟩
      · intro s hs
        rcases List.mem_append.mp hs with h1 | h1
        · have hts := afterglow_body_emit_time st s h1
          exact ⟨le_of_eq hts.symm,
            by rw [hts]; exact lt_of_lt_of_le htime1 hle1⟩
        · have hb := hbnd1 s h1
          exact ⟨le_trans (le_of_lt htime1) hb.1, hb.2⟩
      · rw [List.map_append, List.pairwise_append]
        refine ⟨?_, hpw1, ?_⟩
        · simp only [afterglow_body]
          unfold maybe_emit
          split_ifs <;> simp
        · intro a ha b hb
          rcases List.mem_map.mp ha with ⟨s, hs, rfl⟩
          rcases List.mem_map.mp hb with ⟨t, ht, rfl⟩
          have h1 := afterglow_body_emit_time st s hs
          have h2 := (hbnd1 t ht).1
          rw [h1]
          exact lt_of_lt_of_le htime1 h2

theorem afterglow_prep_dt (st : GM) : (afterglow_prep st).dt = st.dt := rfl

theorem afterglow_prep_time (st : GM) :
    (afterglow_prep st).simulation_time = st.simulation_time := rfl

/-- C10: sample monotonicity.  Over any run of the bounded main loop
with `dt > 0` (from any starting state, checkpoint-seeded ones
included), the sequence of emitted sample rows has strictly increasing
`simulation_time`: no two rows with the same or a decreasing time are
ever written. -/
theorem sample_times_strictly_increasing (st : GM) (n1 n2 : Nat)
    (hdt : 0 < st.dt) :
    List.Pairwise (fun a b => a < b)
      (((process_main_loop n1 n2 st).2).map Sample.time) := by
  simp only [process_main_loop]
  obtain ⟨hdt1, hle1, hbnd1, hpw1⟩ := run_pulse_times n1 st hdt
  have hdtp : 0 < (afterglow_prep (run_pulse n1 st).1).dt := by
    rw [afterglow_prep_dt, hdt1]
    exact hdt
  obtain ⟨hdt2, hle2, hbnd2, hpw2⟩ :=
    run_afterglow_times n2 (afterglow_prep (run_pulse n1 st).1) hdtp
  rw [List.map_append, List.pairwise_append]
  refine ⟨hpw1, hpw2, ?_⟩
  intro a ha b hb
  rcases List.mem_map.mp ha with ⟨s, hs, rfl⟩
  rcases List.mem_map.mp hb with ⟨t, ht, rfl⟩
  have h1 := (hbnd1 s hs).2
  have h2 := (hbnd2 t ht).1
  rw [afterglow_prep_time] at h2
  exact lt_of_lt_of_le h1 h2

/-- Witness for C10 at the default model, one iteration of each
phase. -/
theorem sample_times_strictly_increasing_witness :
    0 < default_model.dt ∧
    List.Pairwise (fun a b => a < b)
      (((process_main_loop 1 1 default_model).2).map Sample.time) :=
  ⟨by norm_num [default_model, init_state],
   sample_times_strictly_increasing default_model 1 1
     (by norm_num [default_model, init_state])⟩

/-- Abstracted token of a comma-separated checkpoint line, after
`strip()`: empty, numeric with its parsed value, or non-numeric (on
which Python's `float()` raises `ValueError`). -/
inductive PTok where
  | empty
  | num (q : ℚ)
  | bad
deriving DecidableEq

/-- One line of the persisted `output.csv`, abstracted to its stripped
character length (only compared against 50) and its comma-split
tokens. -/
structure FileLine where
  length : Nat
  toks : List PTok

/-- Scan keeping the last line longer than 50 characters
(globalmodel.py lines 285–290); `none` models the still-empty
`data_line` (`if not data_line: return`, lines 292–293). -/
def last_long_line (lines : List FileLine) : Option FileLine :=
  lines.foldl (fun acc l => if 50 < l.length then some l else acc) none

/-- Token parse loop (globalmodel.py lines 295–301): skip empty
tokens, parse non-empty ones with `float(token)` — which raises
`ValueError` on a non-numeric token, and there is no handler — and
break as soon as `NO_SPECIES + 2` values are collected (the break test
runs after every token).  `Except.error` models the uncaught
exception. -/
def parse_floats : List PTok → List ℚ → Except Unit (List ℚ)
  | [], acc => Except.ok acc
  | PTok.empty :: rest, acc =>
    if NO_SPECIES + 2 ≤ acc.length then Except.ok acc
    else parse_floats rest acc
  | PTok.num q :: rest, acc =>
    if NO_SPECIES + 2 ≤ (acc ++ [q]).length then Except.ok (acc ++ [q])
    else parse_floats rest (acc ++ [q])
  | PTok.bad :: _, _ => Except.error ()

/-- `GlobalModel.read_species_density_data_file` (globalmodel.py lines
278–316) over the abstracted file: `none` is a missing file (warning
printed, state kept); otherwise the last long line is parsed and, when
at least `NO_SPECIES + 2` values were collected, the densities of
species `1 .. NO_SPECIES` (clamped through `set_density`), the
aggregate index-0 density (the clamped raw sum), the simulation time,
the last-saved time and the step count (`int()`-truncated) are
restored; with fewer values the state is left unchanged.  The uncaught
`ValueError` from `float()` is the `Except.error` case. -/
def read_species_density_data_file : Option (List FileLine) → GM → Except Unit GM
  | none, st => Except.ok st
  | some lines, st =>
    match last_long_line lines with
    | none => Except.ok st
    | some dl =>
      match parse_floats dl.toks [] with
      | Except.error e => Except.error e
      | Except.ok values =>
        if values.length < NO_SPECIES + 2 then Except.ok st
        else Except.ok { st with
          density := fun idx =>
            if idx = 0 then set_density ((values.take NO_SPECIES).sum)
            else if 1 ≤ idx ∧ idx ≤ NO_SPECIES then
              set_density (values.getD (idx - 1) 0)
            else st.density idx,
          simulation_time := values.getD 53 0,
          last_saved_simulation_time := values.getD 53 0,
          step_count := pyInt (values.getD 54 0) }

/-- C5 counterexample: a checkpoint whose only long line carries a
non-numeric token — e.g. a file holding just the header line of
`output.csv` — makes `read_species_density_data_file` raise
`ValueError` at `float(token)` (globalmodel.py line 299 has no
handler, nor does any caller), instead of returning normally as the
claim states for "any content". -/
theorem checkpoint_restore_raises_on_bad_token :
    read_species_density_data_file (some [⟨600, [PTok.bad]⟩]) default_model
      = Except.error () := rfl

theorem parse_floats_no_bad (toks : List PTok) : ∀ acc : List ℚ,
    (∀ t ∈ toks, t ≠ PTok.bad) →
    ∃ vs, parse_floats toks acc = Except.ok vs := by
  induction toks with
  | nil => intro acc _; exact ⟨acc, rfl⟩
  | cons t rest ih =>
    intro acc h
    have hrest : ∀ u ∈ rest, u ≠ PTok.bad :=
      fun u hu => h u (List.mem_cons_of_mem t hu)
    cases t with
    | empty =>
      by_cases hl : NO_SPECIES + 2 ≤ acc.length
      · exact ⟨acc, by rw [parse_floats, if_pos hl]⟩
      · obtain ⟨vs, hvs⟩ := ih acc hrest
        exact ⟨vs, by rw [parse_floats, if_neg hl, hvs]⟩
    | num q =>
      by_cases hl : NO_SPECIES + 2 ≤ (acc ++ [q]).length
      · exact ⟨acc ++ [q], by rw [parse_floats, if_pos hl]⟩
      · obtain ⟨vs, hvs⟩ := ih (acc ++ [q]) hrest
        exact ⟨vs, by rw [parse_floats, if_neg hl, hvs]⟩
    | bad =>
      exact absurd rfl (h PTok.bad (List.mem_cons_self PTok.bad rest))

/-- C5 (amended): checkpoint restore is non-fatal with the model state
unchanged for a missing file, for a file with no line longer than 50
characters (empty file or header shorter than 51 characters included),
and for a last long line yielding fewer than `NO_SPECIES + 2` values
with every examined token numeric or empty; and it returns normally
whenever the last long line carries no non-numeric token.  (It raises
`ValueError` when a non-numeric token is reached — the header-only and
non-numeric-token cases of the original claim, refuted by the
counterexample.) -/
theorem checkpoint_restore_non_fatal_cases (st : GM) :
    (read_species_density_data_file none st = Except.ok st) ∧
    (∀ lines, last_long_line lines = none →
      read_species_density_data_file (some lines) st = Except.ok st) ∧
    (∀ lines dl vs, last_long_line lines = some dl →
      parse_floats dl.toks [] = Except.ok vs →
      vs.length < NO_SPECIES + 2 →
      read_species_density_data_file (some lines) st = Except.ok st) ∧
    (∀ lines dl, last_long_line lines = some dl →
      (∀ t ∈ dl.toks, t ≠ PTok.bad) →
      ∃ st2, read_species_density_data_file (some lines) st
        = Except.ok st2) := by
  refine ⟨rfl, ?_, ?_, ?_⟩
  · intro lines hll
    simp only [read_species_density_data_file, hll]
  · intro lines dl vs hll hp hlen
    simp only [read_species_density_data_file, hll, hp, if_pos hlen]
  · intro lines dl hll hnb
    obtain ⟨vs, hvs⟩ := parse_floats_no_bad dl.toks [] hnb
    by_cases hlen : vs.length < NO_SPECIES + 2
    · exact ⟨st, by
        simp only [read_species_density_data_file, hll, hvs, if_pos hlen]⟩
    · exact ⟨_, by
        simp only [read_species_density_data_file, hll, hvs, if_neg hlen]
        rfl⟩

/-- Witness for C5 (amended) on the empty file: no long line, state
unchanged. -/
theorem checkpoint_restore_non_fatal_cases_witness :
    last_long_line [] = none ∧
    read_species_density_data_file (some []) default_model
      = Except.ok default_model :=
  ⟨rfl, (checkpoint_restore_non_fatal_cases default_model).2.1 [] rfl⟩

end AirGM
